import Mathlib

/-!
Verification of the Betting-Bot parsing, row-placement and formula logic
(`src/MATT.py`), as a shallow embedding in Lean 4.

The embedding works on `List Char` for the regex-driven extraction, mirroring
each pre-compiled pattern of the source as an executable search function with
Python's leftmost / greedy semantics, and models the fallible parser
`parse_bet_details` as a function into `Except PyErr BetRecord` (Python's
`ValueError` and the `AttributeError` raised by calling `.group(0)` on a
failed `re.search`).  The row-placement scan of `save_bet_to_google_sheets`
is modelled as a structurally faithful loop over the ledger rows, and the
commission formula string as a template together with a small expression AST
that renders to exactly that string and has an evaluation semantics.
-/

namespace BettingBot

/-- ASCII model of Python's regex `\w` character class. -/
def isWordChar (c : Char) : Bool := c.isAlphanum || c = '_'

/-- ASCII model of regex `[a-zA-Z]`. -/
def isAlphaChar (c : Char) : Bool := c.isAlpha

/-- Model of regex `\d`. -/
def isDigitChar (c : Char) : Bool := c.isDigit

/-- ASCII model of Python's regex `\s` / `str.strip` whitespace. -/
def isSpaceChar (c : Char) : Bool :=
  c = ' ' || c = '\t' || c = '\n' || c = '\r' || c = '\x0b' || c = '\x0c'

/-- Python `str.lower()` (ASCII). -/
def lowerL (l : List Char) : List Char := l.map Char.toLower

/-- Python `str.upper()` (ASCII). -/
def upperL (l : List Char) : List Char := l.map Char.toUpper

/-- Python substring test `needle in hay` (contiguous substring). -/
def strContainsAux (needle : List Char) : List Char → Bool
  | [] => needle.isEmpty
  | c :: rest => needle.isPrefixOf (c :: rest) || strContainsAux needle rest

/-- Python `needle in hay` on strings. -/
def strContains (hay needle : String) : Bool := strContainsAux needle.toList hay.toList

/-- Python `s.split(" ", 1)`: `none` when the string has no space
(the source then sees a singleton list and raises `ValueError`). -/
def splitOnce : List Char → Option (List Char × List Char)
  | [] => none
  | c :: rest =>
    if c = ' ' then some ([], rest)
    else
      match splitOnce rest with
      | none => none
      | some (a, b) => some (c :: a, b)

/-- `website_regex = re.compile(r'\b\w+\b')`, `.search`: the first maximal
run of word characters. -/
def searchWord : List Char → Option (List Char)
  | [] => none
  | c :: rest =>
    if isWordChar c then some (c :: rest.takeWhile isWordChar)
    else searchWord rest

/-- One attempt of `match_regex = re.compile(r'([a-zA-Z]+/[a-zA-Z]+)')` at the
current position: greedy letter run, a `/`, then a greedy letter run. -/
def matchLabelAt (l : List Char) : Option (List Char) :=
  let run := l.takeWhile isAlphaChar
  if run.isEmpty then none
  else
    match l.drop run.length with
    | '/' :: rest2 =>
      let run2 := rest2.takeWhile isAlphaChar
      if run2.isEmpty then none else some (run ++ '/' :: run2)
    | _ => none

/-- `match_regex.search`: leftmost position at which the pattern matches. -/
def searchMatchLabel : List Char → Option (List Char)
  | [] => none
  | c :: rest =>
    match matchLabelAt (c :: rest) with
    | some m => some m
    | none => searchMatchLabel rest

/-- One attempt of `time_regex = re.compile(r'\b(1h|2h|ot|ht)\b', re.IGNORECASE)`
at the current position (needs a word boundary on both sides). -/
def timeAt (prevIsWord : Bool) (l : List Char) : Option (List Char) :=
  match l with
  | c1 :: c2 :: rest =>
    if prevIsWord then none
    else
      let w := [c1.toLower, c2.toLower]
      if (w = ['1', 'h'] || w = ['2', 'h'] || w = ['o', 't'] || w = ['h', 't'])
          && (match rest with | [] => true | d :: _ => !isWordChar d) then
        some [c1, c2]
      else none
  | _ => none

/-- `time_regex.search`, tracking whether the previous character was a word
character (for the leading `\b`). -/
def searchTimeAux (prevIsWord : Bool) : List Char → Option (List Char)
  | [] => none
  | c :: rest =>
    match timeAt prevIsWord (c :: rest) with
    | some m => some m
    | none => searchTimeAux (isWordChar c) rest

/-- `time_regex.search` on the whole remainder. -/
def searchTime (l : List Char) : Option (List Char) := searchTimeAux false l

/-- One attempt of `points_regex = re.compile(r'[uo]\d+|[+-]\d+', re.IGNORECASE)`
at the current position.  Both alternatives are a single lead character
followed by a greedy digit run (note: a decimal point is NOT part of the
pattern, so `o2.5` matches only as `o2`). -/
def pointsAt (l : List Char) : Option (List Char) :=
  match l with
  | c :: rest =>
    if c.toLower = 'u' || c.toLower = 'o' || c = '+' || c = '-' then
      let ds := rest.takeWhile isDigitChar
      if ds.isEmpty then none else some (c :: ds)
    else none
  | [] => none

/-- `points_regex.search`: leftmost match. -/
def searchPoints : List Char → Option (List Char)
  | [] => none
  | c :: rest =>
    match pointsAt (c :: rest) with
    | some m => some m
    | none => searchPoints rest

/-- Group 1 of `odds_regex = re.compile(r'@(\d+(\.\d+)?)')` attempted right
after an `@`; also returns how many characters the group consumed, so the
`findall` scan can continue after the match (non-overlapping matches). -/
def oddsAt (rest : List Char) : Option (List Char × Nat) :=
  let ds := rest.takeWhile isDigitChar
  if ds.isEmpty then none
  else
    match rest.drop ds.length with
    | '.' :: r2 =>
      let fs := r2.takeWhile isDigitChar
      if fs.isEmpty then some (ds, ds.length)
      else some (ds ++ '.' :: fs, ds.length + 1 + fs.length)
    | _ => some (ds, ds.length)

/-- `odds_regex.findall`: the list of group-1 strings of all
(non-overlapping, leftmost) matches.  The fuel argument only bounds the
recursion (every step consumes at least one character, so `l.length` fuel
is always enough); it keeps the definition structurally recursive. -/
def findallOddsAux : Nat → List Char → List (List Char)
  | 0, _ => []
  | _, [] => []
  | fuel + 1, c :: rest =>
    if c = '@' then
      match oddsAt rest with
      | some (g, n) => g :: findallOddsAux fuel (rest.drop n)
      | none => findallOddsAux fuel rest
    else findallOddsAux fuel rest

/-- `odds_regex.findall` on the whole remainder. -/
def findallOdds (l : List Char) : List (List Char) := findallOddsAux l.length l

/-- One attempt of
`amount_currency_regex = re.compile(r'@\d+(\.\d+)?\s+(\d+[kK]?\s*[A-Za-z]*)', re.IGNORECASE)`
at the current position; returns group 2.  The amount phrase can only be
found immediately after an `@odds` token. -/
def acAttempt : List Char → Option (List Char)
  | '@' :: rest =>
    let ds := rest.takeWhile isDigitChar
    if ds.isEmpty then none
    else
      let r1 := rest.drop ds.length
      let r2 :=
        match r1 with
        | '.' :: r =>
          let fs := r.takeWhile isDigitChar
          if fs.isEmpty then r1 else r.drop fs.length
        | _ => r1
      let ws := r2.takeWhile isSpaceChar
      if ws.isEmpty then none
      else
        let r3 := r2.drop ws.length
        let ds2 := r3.takeWhile isDigitChar
        if ds2.isEmpty then none
        else
          let r4 := r3.drop ds2.length
          let kr :=
            match r4 with
            | 'k' :: r => (['k'], r)
            | 'K' :: r => (['K'], r)
            | _ => (([] : List Char), r4)
          let ws2 := kr.2.takeWhile isSpaceChar
          let r6 := kr.2.drop ws2.length
          let letters := r6.takeWhile isAlphaChar
          some (ds2 ++ kr.1 ++ ws2 ++ letters)
  | _ => none

/-- `amount_currency_regex.search(...).group(2)`: leftmost match. -/
def searchAmountCurrency : List Char → Option (List Char)
  | [] => none
  | c :: rest =>
    match acAttempt (c :: rest) with
    | some g => some g
    | none => searchAmountCurrency rest

/-- One attempt of `re.search(r'\b[A-Za-z]{3}\b', ...)` at the current
position: exactly three letters enclosed by word boundaries. -/
def currency3At (prevIsWord : Bool) (l : List Char) : Option (List Char) :=
  match l with
  | a :: b :: c :: rest =>
    if !prevIsWord && isAlphaChar a && isAlphaChar b && isAlphaChar c
        && (match rest with | [] => true | d :: _ => !isWordChar d) then
      some [a, b, c]
    else none
  | _ => none

/-- `re.search(r'\b[A-Za-z]{3}\b', ...)`: leftmost match. -/
def searchCurrency3Aux (prevIsWord : Bool) : List Char → Option (List Char)
  | [] => none
  | c :: rest =>
    match currency3At prevIsWord (c :: rest) with
    | some m => some m
    | none => searchCurrency3Aux (isWordChar c) rest

/-- `re.search(r'\b[A-Za-z]{3}\b', ...)` on a whole string. -/
def searchCurrency3 (l : List Char) : Option (List Char) := searchCurrency3Aux false l

/-- Python `str.strip()`. -/
def pyStrip (l : List Char) : List Char :=
  ((l.dropWhile isSpaceChar).reverse.dropWhile isSpaceChar).reverse

/-- Numeric value of a digit string. -/
def digitsVal (l : List Char) : Nat :=
  l.foldl (fun a c => a * 10 + (c.toNat - '0'.toNat)) 0

/-- The two Python exceptions the parser can raise: `ValueError` (explicitly
raised, or raised by `int()`), and the `AttributeError` produced by calling
`.group(0)` on `None` when `re.search` finds nothing. -/
inductive PyErr where
  | valueError (msg : String)
  | attributeError
deriving DecidableEq, Repr

/-- Python `int(s)` restricted to the strings reachable in this program:
a nonempty digit string converts, anything else raises `ValueError`. -/
def pyInt (l : List Char) : Except PyErr Nat :=
  if !l.isEmpty && l.all isDigitChar then Except.ok (digitsVal l)
  else
    Except.error (PyErr.valueError ("invalid literal for int() with base 10: '" ++ String.mk l ++ "'"))

/-- Insert a comma after every three digits of a reversed digit list
(helper for `'\x7b:,\x7d'.format`). -/
def groupThrees : List Char → List Char
  | a :: b :: c :: d :: rest => a :: b :: c :: ',' :: groupThrees (d :: rest)
  | l => l

/-- Python `'\x7b:,\x7d'.format(n)`: thousands-separator formatting. -/
def pyFormatComma (n : Nat) : String :=
  String.mk ((groupThrees (Nat.toDigits 10 n).reverse).reverse)

/-- The structured record returned by `parse_bet_details` (the source returns
a 9-tuple; the field names follow the tuple components). -/
structure BetRecord where
  website : String
  matchLabel : String
  time : String
  points : String
  odds : String
  correctOdds : String
  amount : String
  currency : String
  is_total : Bool
deriving DecidableEq, Repr

/-- The record assembled at the end of `parse_bet_details` (lines 165-177 of
the source): defaults for missing time/points, upper-casing, thousands
formatting, and the forcing of `website = "N/A"` for totals. -/
def mkBetRecord (website matchC : List Char) (timeOpt pointsOpt : Option (List Char))
    (bet_odds correct_odds : List Char) (amountN : Nat) (currency : List Char)
    (is_total : Bool) : BetRecord where
  website := if is_total then "N/A" else String.mk website
  matchLabel := String.mk matchC
  time := String.mk (upperL (timeOpt.getD []))
  points := String.mk (upperL (pointsOpt.getD []))
  odds := String.mk bet_odds
  correctOdds := String.mk correct_odds
  amount := pyFormatComma amountN
  currency := String.mk (upperL currency)
  is_total := is_total

/-- `parse_bet_details` (source lines 148-177), step for step:
split off the first token; run each pre-compiled regex on the remainder
(`.group(0)` on a failed search raises `AttributeError`); check
`not match or not amount_currency_match or len(odds) < 1` and raise
`ValueError("Invalid bet details.")`; convert the amount (a lowercase `k`
suffix means x1000, via `int()` which may itself raise); format and return. -/
def parse_bet_details (bet_details : String) : Except PyErr BetRecord :=
  match splitOnce bet_details.toList with
  | none => Except.error (PyErr.valueError "Invalid bet format.")
  | some (_, remaining_details) =>
    match searchWord remaining_details with
    | none => Except.error PyErr.attributeError
    | some website =>
      match searchMatchLabel remaining_details with
      | none => Except.error PyErr.attributeError
      | some matchC =>
        let timeOpt := searchTime remaining_details
        let pointsOpt := searchPoints remaining_details
        let odds := findallOdds remaining_details
        let is_total := strContainsAux "total".toList (lowerL remaining_details)
        if matchC.isEmpty then Except.error (PyErr.valueError "Invalid bet details.")
        else
          match searchAmountCurrency remaining_details, odds with
          | some acm, bet_odds :: oddsRest =>
            let correct_odds :=
              match oddsRest with
              | c2 :: _ => c2
              | [] => "0".toList
            let amount_currency := pyStrip acm
            let amount_str := amount_currency.takeWhile (fun c => c ≠ ' ')
            let currency := (searchCurrency3 amount_currency).getD "USD".toList
            match (if amount_str.getLast? = some 'k'
                   then (pyInt amount_str.dropLast).map (· * 1000)
                   else pyInt amount_str) with
            | Except.error e => Except.error e
            | Except.ok amountN =>
              Except.ok (mkBetRecord website matchC timeOpt pointsOpt bet_odds
                correct_odds amountN currency is_total)
          | _, _ => Except.error (PyErr.valueError "Invalid bet details.")

deriving instance DecidableEq for Except

/-! ## Row placement (`save_bet_to_google_sheets`, source lines 186-218) -/

/-- One spreadsheet row, as returned by the values API: a list of cell
strings. -/
abbrev LedgerRow := List String

/-- `existing_row and existing_row[0].lower().startswith("end of")`
(source line 193). -/
def isEndOfWeekRow (r : LedgerRow) : Bool :=
  match r with
  | [] => false
  | c :: _ => "end of".toList.isPrefixOf (lowerL c.toList)

/-- The loop of source lines 191-194: index of the last row whose first
cell case-insensitively starts with `"end of"`; `-1` when there is none. -/
def last_end_of_week_index (rows : List LedgerRow) : Int :=
  rows.enum.foldl (fun acc p => if isEndOfWeekRow p.2 then (p.1 : Int) else acc) (-1)

/-- `len(rows[i]) > 1 and match in rows[i][1]` (source lines 199 and 202). -/
def rowMatches (m : String) (r : LedgerRow) : Bool :=
  decide (1 < r.length) && strContains (r.getD 1 "") m

/-- The scan of source lines 198-203 over `range(last_end_of_week_index + 1,
len(rows))`: on a match with `is_total` the loop breaks with position `i + 1`;
on a match without `is_total` it records `i + 2` and keeps scanning (so the
last match wins).  The fuel argument only bounds the recursion (the loop runs
at most `rows.length` iterations) to keep the definition structural. -/
def rowPositionLoop (rows : List LedgerRow) (m : String) (is_total : Bool) :
    Nat → Nat → Nat → Nat
  | 0, _, pos => pos
  | fuel + 1, i, pos =>
    if i < rows.length then
      let r := rows.getD i []
      if rowMatches m r && is_total then i + 1
      else if rowMatches m r then rowPositionLoop rows m is_total fuel (i + 1) (i + 2)
      else rowPositionLoop rows m is_total fuel (i + 1) pos
    else pos

/-- The resolved 1-based target row (`row_position`, source lines 196-203):
default `len(rows) + 1`, then the scan after the last boundary. -/
def row_position (rows : List LedgerRow) (m : String) (is_total : Bool) : Nat :=
  rowPositionLoop rows m is_total rows.length
    (last_end_of_week_index rows + 1).toNat (rows.length + 1)

/-- Source line 206: the `insertRange` batch update (physically inserting a
row and shifting rows at or below the target down) is issued exactly when
`row_position <= len(rows)`. -/
def insertIssued (rows : List LedgerRow) (m : String) (is_total : Bool) : Bool :=
  row_position rows m is_total ≤ rows.length

/-! ## Formula generation (source lines 225-238) -/

/-- A value in a spreadsheet cell: text, number, or boolean. -/
inductive SVal where
  | s (v : String)
  | n (v : ℚ)
  | b (v : Bool)
deriving DecidableEq

/-- Expression AST for the generated formulas: cell references, literals
(numeric literals carry their source spelling), multiplication, equality
comparison, `IF`, and `TEXT`. -/
inductive SExpr where
  | strLit (v : String)
  | numLit (txt : String) (v : ℚ)
  | cell (col : String) (row : Nat)
  | mul (a b : SExpr)
  | eqE (a b : SExpr)
  | ifE (c t e : SExpr)
  | textE (a : SExpr) (fmt : String)

/-- Render an expression in the spreadsheet formula language, with the exact
spacing the source's f-strings use. -/
def render : SExpr → String
  | SExpr.strLit v => "\"" ++ v ++ "\""
  | SExpr.numLit t _ => t
  | SExpr.cell col row => col ++ toString row
  | SExpr.mul a b => render a ++ " * " ++ render b
  | SExpr.eqE a b => render a ++ "=" ++ render b
  | SExpr.ifE c t e => "IF(" ++ render c ++ ", " ++ render t ++ ", " ++ render e ++ ")"
  | SExpr.textE a fmt => "TEXT(" ++ render a ++ ", \"" ++ fmt ++ "\")"

/-- A whole formula: leading `=` then the rendered expression. -/
def renderFormula (e : SExpr) : String := "=" ++ render e

/-- `TEXT(x, "#,##0.00")`: two decimals, thousands separators on the integer
part, rounding to the nearest cent. -/
def sheetTextTwoDec (q : ℚ) : String :=
  let c : ℤ := round (q * 100)
  let sign := if c < 0 then "-" else ""
  let n := c.natAbs
  let r := n % 100
  sign ++ pyFormatComma (n / 100) ++ "." ++ (if r < 10 then "0" else "") ++ toString r

/-- `TEXT(x, "#,##0")`: thousands separators, rounding to nearest integer. -/
def sheetTextThousands (q : ℚ) : String :=
  let c : ℤ := round q
  (if c < 0 then "-" else "") ++ pyFormatComma c.natAbs

/-- Dispatch of the `TEXT` second argument for the two formats the source
uses. -/
def applyTextFormat (fmt : String) (x : ℚ) : String :=
  if fmt = "#,##0.00" then sheetTextTwoDec x else sheetTextThousands x

/-- Evaluation of a formula expression against a cell environment
(column name and 1-based row index to value); `none` on type mismatch. -/
def evalS (env : String → Nat → SVal) : SExpr → Option SVal
  | SExpr.strLit v => some (SVal.s v)
  | SExpr.numLit _ v => some (SVal.n v)
  | SExpr.cell c r => some (env c r)
  | SExpr.mul a b =>
    match evalS env a, evalS env b with
    | some (SVal.n x), some (SVal.n y) => some (SVal.n (x * y))
    | _, _ => none
  | SExpr.eqE a b =>
    match evalS env a, evalS env b with
    | some x, some y => some (SVal.b (decide (x = y)))
    | _, _ => none
  | SExpr.ifE c t e =>
    match evalS env c with
    | some (SVal.b true) => evalS env t
    | some (SVal.b false) => evalS env e
    | _ => none
  | SExpr.textE a fmt =>
    match evalS env a with
    | some (SVal.n x) => some (SVal.s (applyTextFormat fmt x))
    | _ => none

/-- The commission formula f-string of source line 228:
`f'=IF(D{row_position}="TEXTODDS", TEXT(C{row_position} * 60 * 0.02, "#,##0.00"), "")'`. -/
def coms_formula (row_position : Nat) : String :=
  "=IF(D" ++ (toString row_position ++ ("=\"TEXTODDS\", TEXT(C"
    ++ (toString row_position ++ " * 60 * 0.02, \"#,##0.00\"), \"\")")))

/-- The commission formula as an AST (same shape as the rendered string). -/
def comsAST (r : Nat) : SExpr :=
  SExpr.ifE (SExpr.eqE (SExpr.cell "D" r) (SExpr.strLit "TEXTODDS"))
    (SExpr.textE
      (SExpr.mul (SExpr.mul (SExpr.cell "C" r) (SExpr.numLit "60" 60))
        (SExpr.numLit "0.02" (0.02 : ℚ)))
      "#,##0.00")
    (SExpr.strLit "")

/-- A seven-row ledger: boundary ("End of Week") at 1-based index 5, a
matching row at 1-based index 7, nothing after it. -/
def rows7 : List LedgerRow :=
  [["Date", "Match"], ["d1", "X/Y a"], ["d2", "Foo/Bar"], ["d3", "x"],
   ["End of Week"], ["d5", "Other/Match"], ["d6", "TeamA/TeamB vs"]]

/-- An eight-row ledger: boundary at 1-based index 5, last match at 1-based
index 7, one non-matching row after it. -/
def rows8 : List LedgerRow :=
  [["Date", "Match"], ["d1", "X/Y a"], ["d2", "Foo/Bar"], ["d3", "x"],
   ["End of Week"], ["d5", "Other/Match"], ["d6", "TeamA/TeamB vs"], ["d7", "zz"]]

/-- A ledger whose active segment has two rows matching the same label
(1-based indices 2 and 4). -/
def rowsMulti : List LedgerRow :=
  [["End of Week"], ["d1", "TeamA/TeamB one"], ["d2", "x"],
   ["d3", "TeamA/TeamB two"], ["d4", "y"]]

/-- Concrete cell environment for the formula-evaluation witness: row 10 has
platform `TEXTODDS` in column D and amount 500 in column C. -/
def envW : String → Nat → SVal := fun c r =>
  if c = "D" ∧ r = 10 then SVal.s "TEXTODDS"
  else if c = "C" ∧ r = 10 then SVal.n 500
  else SVal.s ""


/-! ## Lemmas about the placement scan -/

/-- If no row in the remaining scanned range matches, the scan leaves the
recorded position unchanged. -/
theorem rowPositionLoop_no_match (rows : List LedgerRow) (m : String) (t : Bool) :
    ∀ fuel i pos, rows.length ≤ i + fuel →
    (∀ j, i ≤ j → j < rows.length → rowMatches m (rows.getD j []) = false) →
    rowPositionLoop rows m t fuel i pos = pos := by
  intro fuel
  induction fuel with
  | zero => intro i pos _ _; simp [rowPositionLoop]
  | succ fuel ih =>
    intro i pos hb hnone
    by_cases hi : i < rows.length
    · simp only [rowPositionLoop, hi, if_true, hnone i le_rfl hi, Bool.false_and,
        if_false]
      exact ih (i + 1) pos (by omega) (fun j hj hjl => hnone j (by omega) hjl)
    · simp [rowPositionLoop, hi]

/-- With `is_total = true` the scan breaks at the first matching row `j`,
returning `j + 1`. -/
theorem rowPositionLoop_first_match (rows : List LedgerRow) (m : String) :
    ∀ fuel i pos j, i ≤ j → j < rows.length → rows.length ≤ i + fuel →
    (∀ x, i ≤ x → x < j → rowMatches m (rows.getD x []) = false) →
    rowMatches m (rows.getD j []) = true →
    rowPositionLoop rows m true fuel i pos = j + 1 := by
  intro fuel
  induction fuel with
  | zero => intro i pos j hij hjl hb _ _; omega
  | succ fuel ih =>
    intro i pos j hij hjl hb hbefore hj
    have hi : i < rows.length := by omega
    rcases Nat.eq_or_lt_of_le hij with heq | hlt
    · subst heq
      have hj2 : rowMatches m rows[i] = true := by
        simpa [List.getD_eq_getElem?_getD, List.getElem?_eq_getElem hi] using hj
      simp [rowPositionLoop, hi, hj2]
    · have hmi : rowMatches m (rows.getD i []) = false := hbefore i le_rfl hlt
      simp only [rowPositionLoop, hi, if_true, hmi, Bool.false_and, if_false]
      exact ih (i + 1) pos j (by omega) hjl (by omega)
        (fun x hx hxj => hbefore x (by omega) hxj) hj

/-- With `is_total = false` the scan never breaks, so the last matching row
`k` determines the result `k + 2`. -/
theorem rowPositionLoop_last_match (rows : List LedgerRow) (m : String) :
    ∀ fuel i pos k, i ≤ k → k < rows.length → rows.length ≤ i + fuel →
    rowMatches m (rows.getD k []) = true →
    (∀ x, k < x → x < rows.length → rowMatches m (rows.getD x []) = false) →
    rowPositionLoop rows m false fuel i pos = k + 2 := by
  intro fuel
  induction fuel with
  | zero => intro i pos k hik hkl hb _ _; omega
  | succ fuel ih =>
    intro i pos k hik hkl hb hk hafter
    have hi : i < rows.length := by omega
    rcases Nat.eq_or_lt_of_le hik with heq | hlt
    · subst heq
      simp only [rowPositionLoop, hi, if_true, hk, Bool.true_and, Bool.and_false,
        if_false]
      exact rowPositionLoop_no_match rows m false fuel (i + 1) (i + 2) (by omega)
        (fun j hj hjl => hafter j (by omega) hjl)
    · by_cases hmi : rowMatches m (rows.getD i []) = true
      · simp only [rowPositionLoop, hi, if_true, hmi, Bool.true_and, Bool.and_false,
          if_false]
        exact ih (i + 1) (i + 2) k (by omega) hkl (by omega) hk hafter
      · simp only [rowPositionLoop, hi, if_true, Bool.not_eq_true] at hmi ⊢
        simp only [hmi, Bool.false_and, if_false]
        exact ih (i + 1) pos k (by omega) hkl (by omega) hk hafter

/-! ## Claim theorems: row placement -/

/-- C1 (counterexample): a ledger in which the last `"end of"`-prefixed row is
at 1-based index 5 and the record's match label occurs in the second cell of
row 7, yet resolving a total bet — while indeed targeting row 7 — DOES issue
the physical insert (`row_position <= len(rows)` holds, so rows 7 and below
are shifted down before the write): the claimed "no row shift" is false. -/
theorem c1_counterexample :
    last_end_of_week_index rows7 = 4 ∧
    rowMatches "TeamA/TeamB" (rows7.getD 6 []) = true ∧
    row_position rows7 "TeamA/TeamB" true = 7 ∧
    insertIssued rows7 "TeamA/TeamB" true = true := by decide

/-- C1 (amended): with the boundary at 1-based index 5 and row 7 the first
row after it whose second cell contains the match label, a total bet targets
row 7, and the insert batch update IS issued (the target is at most the row
count), shifting rows 7 and below down by one; the record is written into the
freshly inserted row rather than overwriting the matched row. -/
theorem c1_total_insert (rows : List LedgerRow) (m : String)
    (hlen : 7 ≤ rows.length)
    (hb : last_end_of_week_index rows = 4)
    (h6 : rowMatches m (rows.getD 5 []) = false)
    (h7 : rowMatches m (rows.getD 6 []) = true) :
    row_position rows m true = 7 ∧ insertIssued rows m true = true := by
  have hpos : row_position rows m true = 7 := by
    unfold row_position
    rw [hb]
    exact rowPositionLoop_first_match rows m rows.length 5 (rows.length + 1) 6
      (by omega) (by omega) (by omega)
      (fun x hx hxj => by
        have hx5 : x = 5 := by omega
        subst hx5; exact h6) h7
  refine ⟨hpos, ?_⟩
  simp only [insertIssued, hpos, decide_eq_true_eq]
  omega

/-- C1 (witness): the amended statement applied to the concrete
seven-row ledger. -/
theorem c1_total_insert_witness :
    7 ≤ rows7.length ∧ last_end_of_week_index rows7 = 4 ∧
    rowMatches "TeamA/TeamB" (rows7.getD 5 []) = false ∧
    rowMatches "TeamA/TeamB" (rows7.getD 6 []) = true ∧
    (row_position rows7 "TeamA/TeamB" true = 7 ∧
      insertIssued rows7 "TeamA/TeamB" true = true) :=
  ⟨by decide, by decide, by decide, by decide,
    c1_total_insert rows7 "TeamA/TeamB" (by decide) (by decide) (by decide) (by decide)⟩

/-- C5 (counterexample): with the boundary at 1-based index 5, the last
matching row at index 7, and the ledger exactly 7 rows long, a non-total bet
resolves to target 8 but NO physical insert is signalled (target exceeds the
row count, so the write is a plain append): the claimed unconditional shift
of "rows 8 and below" is false. -/
theorem c5_counterexample :
    last_end_of_week_index rows7 = 4 ∧
    rowMatches "TeamA/TeamB" (rows7.getD 6 []) = true ∧
    rows7.length = 7 ∧
    row_position rows7 "TeamA/TeamB" false = 8 ∧
    insertIssued rows7 "TeamA/TeamB" false = false := by decide

/-- C5 (amended): with the boundary at 1-based index 5 and the last matching
row after it at 1-based index 7, a non-total bet targets row 8 (last match
wins, target = last matching row + 1), and the physical insert shifting rows
8 and below is issued exactly when the ledger has at least 8 rows. -/
theorem c5_nontotal_after_last (rows : List LedgerRow) (m : String)
    (hlen : 7 ≤ rows.length)
    (hb : last_end_of_week_index rows = 4)
    (h7 : rowMatches m (rows.getD 6 []) = true)
    (hafter : ∀ x, x < rows.length → 7 ≤ x → rowMatches m (rows.getD x []) = false) :
    row_position rows m false = 8 ∧
    (insertIssued rows m false = true ↔ 8 ≤ rows.length) := by
  have hpos : row_position rows m false = 8 := by
    unfold row_position
    rw [hb]
    exact rowPositionLoop_last_match rows m rows.length 5 (rows.length + 1) 6
      (by omega) (by omega) (by omega) h7
      (fun x hkx hxl => hafter x hxl (by omega))
  refine ⟨hpos, ?_⟩
  simp only [insertIssued, hpos, decide_eq_true_eq]

/-- C5 (witness): the amended statement applied to the concrete eight-row
ledger, where the insert is issued. -/
theorem c5_nontotal_after_last_witness :
    7 ≤ rows8.length ∧ last_end_of_week_index rows8 = 4 ∧
    rowMatches "TeamA/TeamB" (rows8.getD 6 []) = true ∧
    (∀ x, x < rows8.length → 7 ≤ x →
      rowMatches "TeamA/TeamB" (rows8.getD x []) = false) ∧
    (row_position rows8 "TeamA/TeamB" false = 8 ∧
      (insertIssued rows8 "TeamA/TeamB" false = true ↔ 8 ≤ rows8.length)) :=
  ⟨by decide, by decide, by decide, by decide,
    c5_nontotal_after_last rows8 "TeamA/TeamB" (by decide) (by decide) (by decide)
      (by decide)⟩

/-- C6: when no row strictly after the last `"end of"` boundary contains the
record's match label in its second cell, the resolved target is
`len(rows) + 1` and no insert batch update is issued — and, in general, the
insert is issued exactly when the target is at most the row count. -/
theorem c6_no_match_appends (rows : List LedgerRow) (m : String) (is_total : Bool)
    (hnone : ∀ j, j < rows.length → (last_end_of_week_index rows + 1).toNat ≤ j →
      rowMatches m (rows.getD j []) = false) :
    row_position rows m is_total = rows.length + 1 ∧
    insertIssued rows m is_total = false ∧
    (∀ rs ms ts, insertIssued rs ms ts = true ↔ row_position rs ms ts ≤ rs.length) := by
  have hpos : row_position rows m is_total = rows.length + 1 := by
    unfold row_position
    exact rowPositionLoop_no_match rows m is_total rows.length _ _
      (by omega) (fun j hj hjl => hnone j hjl hj)
  refine ⟨hpos, ?_, ?_⟩
  · simp only [insertIssued, hpos, decide_eq_false_iff_not]
    omega
  · intro rs ms ts
    simp only [insertIssued, decide_eq_true_eq]

/-- C6 (witness): the statement applied to the concrete seven-row ledger and
a label that occurs nowhere after the boundary. -/
theorem c6_no_match_appends_witness :
    (∀ j, j < rows7.length → (last_end_of_week_index rows7 + 1).toNat ≤ j →
      rowMatches "QQ/RR" (rows7.getD j []) = false) ∧
    (row_position rows7 "QQ/RR" false = rows7.length + 1 ∧
      insertIssued rows7 "QQ/RR" false = false ∧
      (∀ rs ms ts, insertIssued rs ms ts = true ↔ row_position rs ms ts ≤ rs.length)) :=
  ⟨by decide, c6_no_match_appends rows7 "QQ/RR" false (by decide)⟩

/-- C10: within the segment after the last `"end of"` boundary, a total bet
is anchored to the FIRST row whose second cell contains the match label
(target = its 1-based index, i.e. `j + 1` for 0-based `j`, because the loop
breaks), while a non-total bet is anchored to the LAST such row (target =
its 1-based index + 1, i.e. `k + 2` for 0-based `k`, because scanning
continues). -/
theorem c10_first_vs_last (rows : List LedgerRow) (m : String) (j k : Nat)
    (hjl : j < rows.length) (hkl : k < rows.length)
    (hjs : (last_end_of_week_index rows + 1).toNat ≤ j)
    (hks : (last_end_of_week_index rows + 1).toNat ≤ k)
    (hjm : rowMatches m (rows.getD j []) = true)
    (hjfirst : ∀ x, x < j → (last_end_of_week_index rows + 1).toNat ≤ x →
      rowMatches m (rows.getD x []) = false)
    (hkm : rowMatches m (rows.getD k []) = true)
    (hklast : ∀ x, x < rows.length → k < x → rowMatches m (rows.getD x []) = false) :
    row_position rows m true = j + 1 ∧ row_position rows m false = k + 2 := by
  constructor
  · unfold row_position
    exact rowPositionLoop_first_match rows m rows.length _ _ j hjs hjl (by omega)
      (fun x hix hxj => hjfirst x hxj hix) hjm
  · unfold row_position
    exact rowPositionLoop_last_match rows m rows.length _ _ k hks hkl (by omega)
      hkm (fun x hkx hxl => hklast x hxl hkx)

/-- C10 (witness): on a segment with matches at 0-based indices 1 and 3, the
total-bet target is 2 (first match) and the non-total target is 5 (after the
last match). -/
theorem c10_first_vs_last_witness :
    (1 : Nat) < rowsMulti.length ∧ (3 : Nat) < rowsMulti.length ∧
    rowMatches "TeamA/TeamB" (rowsMulti.getD 1 []) = true ∧
    rowMatches "TeamA/TeamB" (rowsMulti.getD 3 []) = true ∧
    (∀ x, x < rowsMulti.length → 3 < x →
      rowMatches "TeamA/TeamB" (rowsMulti.getD x []) = false) ∧
    (row_position rowsMulti "TeamA/TeamB" true = 2 ∧
      row_position rowsMulti "TeamA/TeamB" false = 5) :=
  ⟨by decide, by decide, by decide, by decide, by decide,
    c10_first_vs_last rowsMulti "TeamA/TeamB" 1 3 (by decide) (by decide) (by decide)
      (by decide) (by decide) (by decide) (by decide) (by decide)⟩

/-! ## Claim theorems: parser -/

/-- Inversion for successful parses: the returned record's `is_total` flag is
exactly the substring test `'total' in remaining_details.lower()` of source
line 160, and a true flag forces `website = "N/A"` (source lines 175-176). -/
theorem parse_ok_total_inv (s : String) (r : BetRecord) (pre rem : List Char)
    (hsplit : splitOnce s.toList = some (pre, rem))
    (hok : parse_bet_details s = Except.ok r) :
    r.is_total = strContainsAux "total".toList (lowerL rem) ∧
    (strContainsAux "total".toList (lowerL rem) = true → r.website = "N/A") := by
  simp only [parse_bet_details, hsplit] at hok
  repeat' split at hok
  all_goals first
    | exact Except.noConfusion hok
    | (injection hok with h
       subst h
       refine ⟨rfl, fun ht => ?_⟩
       simp only [mkBetRecord]
       rw [ht]
       simp)

/-- C9: total-bet detection is substring based — whenever the remainder after
the first token contains the letter sequence `total` case-insensitively
(also inside a longer word), any successfully parsed record has
`is_total = true` and its website field forced to `"N/A"`. -/
theorem c9_total_substring (s : String) (r : BetRecord) (pre rem : List Char)
    (hsplit : splitOnce s.toList = some (pre, rem))
    (htot : strContainsAux "total".toList (lowerL rem) = true)
    (hok : parse_bet_details s = Except.ok r) :
    r.is_total = true ∧ r.website = "N/A" := by
  obtain ⟨h1, h2⟩ := parse_ok_total_inv s r pre rem hsplit hok
  exact ⟨h1.trans htot, h2 htot⟩

/-- C9 (witness): an input containing "totally" (the marker inside a longer
word) parses with `is_total = true` and website `"N/A"`. -/
theorem c9_total_substring_witness :
    splitOnce "bet Bet365 TeamA/TeamB totally @1.85 2k USD".toList =
      some ("bet".toList, "Bet365 TeamA/TeamB totally @1.85 2k USD".toList) ∧
    strContainsAux "total".toList
      (lowerL "Bet365 TeamA/TeamB totally @1.85 2k USD".toList) = true ∧
    parse_bet_details "bet Bet365 TeamA/TeamB totally @1.85 2k USD" =
      Except.ok ⟨"N/A", "TeamA/TeamB", "", "", "1.85", "0", "2,000", "USD", true⟩ ∧
    ((⟨"N/A", "TeamA/TeamB", "", "", "1.85", "0", "2,000", "USD", true⟩ :
        BetRecord).is_total = true ∧
      (⟨"N/A", "TeamA/TeamB", "", "", "1.85", "0", "2,000", "USD", true⟩ :
        BetRecord).website = "N/A") :=
  ⟨by decide, by decide, by decide,
    c9_total_substring "bet Bet365 TeamA/TeamB totally @1.85 2k USD"
      ⟨"N/A", "TeamA/TeamB", "", "", "1.85", "0", "2,000", "USD", true⟩
      "bet".toList "Bet365 TeamA/TeamB totally @1.85 2k USD".toList
      (by decide) (by decide) (by decide)⟩

/-- C2 (counterexample): the spec's example input does NOT produce
`points = "O2.5"` — the points pattern `[uo]\d+|[+-]\d+` cannot match a
decimal point, so `.5` is dropped. -/
theorem c2_counterexample :
    parse_bet_details "bet Bet365 TeamA/TeamB 1h o2.5 @1.85 5k USD" ≠
      Except.ok ⟨"Bet365", "TeamA/TeamB", "1H", "O2.5", "1.85", "0", "5,000",
        "USD", false⟩ := by decide

/-- C2 (amended): the example input parses to website `"Bet365"`,
match `"TeamA/TeamB"`, time `"1H"`, points `"O2"` (not `"O2.5"`),
odds `"1.85"`, correct odds `"0"`, amount `"5,000"`, currency `"USD"`,
and `is_total = false`. -/
theorem c2_example_parse :
    parse_bet_details "bet Bet365 TeamA/TeamB 1h o2.5 @1.85 5k USD" =
      Except.ok ⟨"Bet365", "TeamA/TeamB", "1H", "O2", "1.85", "0", "5,000",
        "USD", false⟩ := by decide

/-- C3: on an input with two whitespace-separated tokens whose remainder has
no `letters/letters` substring, the parser raises `AttributeError` (from
`.group(0)` on the failed `re.search` at source line 155), NOT the
`ValueError("Invalid bet details.")` the spec's ParseError taxonomy
describes — the `if not match` guard at source line 162 is unreachable. -/
theorem c3_missing_label_attribute_error :
    parse_bet_details "bet Bet365 NoSlashHere @1.85 5k USD" =
      Except.error PyErr.attributeError ∧
    (PyErr.attributeError ≠ PyErr.valueError "Invalid bet details." ∧
      PyErr.attributeError ≠ PyErr.valueError "Invalid bet format.") := by decide

/-- C4 (counterexample): required tokens are NOT order-insensitive — the same
tokens parse when the amount+currency phrase follows the odds token but fail
with `ValueError("Invalid bet details.")` when it precedes it (the
amount regex `@\d+(\.\d+)?\s+(\d+[kK]?\s*[A-Za-z]*)` anchors the amount
directly after an odds token). -/
theorem c4_counterexample :
    (parse_bet_details "bet Bet365 TeamA/TeamB @1.85 5k USD").isOk = true ∧
    (parse_bet_details "bet Bet365 TeamA/TeamB 5k USD @1.85").isOk = false := by
  decide

/-- C4 (amended): moving the match label around the odds+amount block is
order-insensitive (both orders recover the same record), but the
amount+currency phrase must immediately follow an odds token: placing it
before the odds makes the parse fail with
`ValueError("Invalid bet details.")`. -/
theorem c4_order_sensitivity :
    parse_bet_details "bet Bet365 TeamA/TeamB @1.85 5k USD" =
      Except.ok ⟨"Bet365", "TeamA/TeamB", "", "", "1.85", "0", "5,000", "USD", false⟩ ∧
    parse_bet_details "bet Bet365 @1.85 5k USD TeamA/TeamB" =
      Except.ok ⟨"Bet365", "TeamA/TeamB", "", "", "1.85", "0", "5,000", "USD", false⟩ ∧
    parse_bet_details "bet Bet365 TeamA/TeamB 5k USD @1.85" =
      Except.error (PyErr.valueError "Invalid bet details.") := by decide

/-- C7: a trailing lowercase `k` multiplies the amount by 1000 (`"2k"` gives
2000, formatted `"2,000"`; `"5k"` gives `"5,000"`; `"750"` stays 750 with no
separator), but a trailing uppercase `K` is accepted by the amount regex and
then crashes `int()` — `amount_str.endswith('k')` is case-sensitive — so
`"2K"` raises `ValueError("invalid literal for int() ...")` instead of
yielding 2000 as the claim states. -/
theorem c7_k_suffix :
    parse_bet_details "bet Bet365 TeamA/TeamB @1.85 2k USD" =
      Except.ok ⟨"Bet365", "TeamA/TeamB", "", "", "1.85", "0", "2,000", "USD", false⟩ ∧
    parse_bet_details "bet Bet365 TeamA/TeamB @1.85 5k USD" =
      Except.ok ⟨"Bet365", "TeamA/TeamB", "", "", "1.85", "0", "5,000", "USD", false⟩ ∧
    parse_bet_details "bet Bet365 TeamA/TeamB @1.85 750 USD" =
      Except.ok ⟨"Bet365", "TeamA/TeamB", "", "", "1.85", "0", "750", "USD", false⟩ ∧
    parse_bet_details "bet Bet365 TeamA/TeamB @1.85 2K USD" =
      Except.error (PyErr.valueError "invalid literal for int() with base 10: '2K'") := by
  decide

/-! ## Claim theorems: commission formula -/

/-- C8: the generated commission formula for row `r` renders exactly the
source's f-string (conditioning on column D of row `r` equalling
`"TEXTODDS"` and referencing column C of row `r`), and its evaluation in any
cell environment yields the amount times 60 times 0.02 in two-decimal text
format when the platform cell is `"TEXTODDS"`, and the empty string for any
other platform value. -/
theorem c8_coms_formula (r : Nat) (env : String → Nat → SVal) (p : String) (a : ℚ)
    (hD : env "D" r = SVal.s p) (hC : env "C" r = SVal.n a) :
    renderFormula (comsAST r) = coms_formula r ∧
    evalS env (comsAST r) = some (SVal.s (if p = "TEXTODDS"
      then applyTextFormat "#,##0.00" (a * 60 * 0.02) else "")) := by
  constructor
  · simp only [renderFormula, render, comsAST, coms_formula, String.append_assoc]
    rfl
  · by_cases hp : p = "TEXTODDS"
    · simp [comsAST, evalS, hD, hC, hp]
    · simp [comsAST, evalS, hD, hC, hp]

/-- C8 (witness): for row 10 and an environment with platform `TEXTODDS` and
amount 500 in row 10, the rendered formula equals the source string and the
evaluation produces the two-decimal commission text. -/
theorem c8_coms_formula_witness :
    envW "D" 10 = SVal.s "TEXTODDS" ∧ envW "C" 10 = SVal.n 500 ∧
    (renderFormula (comsAST 10) = coms_formula 10 ∧
      evalS envW (comsAST 10) = some (SVal.s (if "TEXTODDS" = "TEXTODDS"
        then applyTextFormat "#,##0.00" ((500 : ℚ) * 60 * 0.02) else ""))) :=
  ⟨by decide, by decide, c8_coms_formula 10 envW "TEXTODDS" 500 (by decide) (by decide)⟩

end BettingBot
